import Mathlib

/-!
Verification of the pronunciation-audio microservice (`src/server.js`, with the
second observed variant in `src/unnamed/part_000`).

The JavaScript program is shallowly embedded: a JS `Map` is a `List (key × value)`
in insertion order, timestamps are `Nat` milliseconds threaded explicitly, the
request handlers are pure functions from a request plus the shared server state
to a response plus the new state, and the asynchronous preload resolution pass
is a separate function applied to the job and cache it mutates.
-/

namespace AudioService

/-! ## JavaScript `Map` semantics

A JS `Map` keeps entries in insertion order; `set` on a key that is already
present updates the value in place without changing the entry's position, and
`delete` removes the single entry with that key. We model a map as an
association list in insertion order. -/

/-- Keys of an association list, in order. -/
def jsMapKeys (m : List (String × α)) : List String :=
  m.map Prod.fst

/-- JS `Map.prototype.has`. -/
def jsMapHas (k : String) (m : List (String × α)) : Bool :=
  m.any (fun e => e.1 == k)

/-- JS `Map.prototype.get` (returning `none` for `undefined`). -/
def jsMapGet (k : String) (m : List (String × α)) : Option α :=
  (m.find? (fun e => e.1 == k)).map Prod.snd

/-- JS `Map.prototype.set`: update in place when the key is present (the entry
keeps its original position), append otherwise. -/
def jsMapSet (k : String) (v : α) (m : List (String × α)) : List (String × α) :=
  if jsMapHas k m then m.map (fun e => if e.1 == k then (k, v) else e)
  else m ++ [(k, v)]

/-- JS `Map.prototype.delete` (dropping the entry with the key, if any). -/
def jsMapDelete (k : String) (m : List (String × α)) : List (String × α) :=
  m.filter (fun e => !(e.1 == k))

/-! ## Configuration (`AUDIO_CONFIG`, server.js lines 24-30) -/

def AUDIO_CONFIG_TTS_BASE_URL : String := "https://translate.google.com/translate_tts"

def AUDIO_CONFIG_MAX_CACHE_SIZE : Nat := 1000

def AUDIO_CONFIG_SUPPORTED_LANGUAGES : List String := ["zh-CN", "zh-TW"]

def AUDIO_CONFIG_DEFAULT_LANGUAGE : String := "zh-CN"

/-- `generateAudioUrl` (server.js lines 33-42): the external TTS resource
locator for a (text, language) pair. The percent-encoding performed by
`URLSearchParams` is abstracted as the identity on the query components. -/
def generateAudioUrl (text : String) (language : String) : String :=
  AUDIO_CONFIG_TTS_BASE_URL ++ "?ie=UTF-8&q=" ++ text ++ "&tl=" ++ language ++ "&client=tw-ob"

/-- `generateCacheKey` (server.js lines 45-47): md5 hex digest of
`text ++ "-" ++ language`. The md5 digest is modelled as the identity on the
hashed input string; the spec (section 9) treats key collisions as acceptable
and out of scope, so nothing below depends on injectivity of the digest. -/
def generateCacheKey (text : String) (language : String) : String :=
  text ++ "-" ++ language

/-! ## Cache records and the bounded cache -/

/-- One cached audio record (server.js lines 156-161): the stored external
locator, the text and language it was derived from, and the creation
timestamp (`new Date().toISOString()`, modelled as `Nat` milliseconds). -/
structure CacheRecord where
  audioUrl : String
  text : String
  language : String
  timestamp : Nat
deriving Repr, DecidableEq

/-- The audio cache: a JS `Map` from cache key to record, in insertion order. -/
abbrev AudioCache := List (String × CacheRecord)

/-- `cleanCache` (server.js lines 50-61), generalized over the capacity
constant (the code reads `AUDIO_CONFIG.MAX_CACHE_SIZE`): when
`size >= capacity`, snapshot the entries and delete the keys of the first
`Math.floor(capacity * 0.2)` of them, i.e. `capacity / 5` rounded down.
`Math.floor(cap * 0.2)` equals `cap / 5` in `Nat` division for the capacities
appearing here (in IEEE double arithmetic, `1000 * 0.2` rounds to exactly
`200.0` and `5 * 0.2` to exactly `1.0`). -/
def cleanCache (cap : Nat) (m : AudioCache) : AudioCache :=
  if cap ≤ m.length then
    (jsMapKeys (m.take (cap / 5))).foldl (fun acc k => jsMapDelete k acc) m
  else m

/-- The cache insertion path shared by `/audio` (server.js lines 155-161) and
the preload pass (lines 290-296): `cleanCache()` followed by
`audioCache.set(cacheKey, record)`. -/
def putRecord (cap : Nat) (k : String) (rec : CacheRecord) (m : AudioCache) : AudioCache :=
  jsMapSet k rec (cleanCache cap m)

/-! ## Text validation (server.js lines 64-69) -/

/-- One character of the regex class `[一-鿿㐀-䶿]`:
CJK Unified Ideographs or CJK Unified Ideographs Extension A. -/
def isChineseChar (c : Char) : Bool :=
  (0x4e00 ≤ c.toNat && c.toNat ≤ 0x9fff) || (0x3400 ≤ c.toNat && c.toNat ≤ 0x4dbf)

/-- JS `String.prototype.length`: the number of UTF-16 code units, counting
characters beyond the Basic Multilingual Plane as two. -/
def jsStringLength (s : String) : Nat :=
  (s.data.map (fun c => if 0x10000 ≤ c.toNat then 2 else 1)).sum

/-- `isValidChineseText` (server.js lines 64-69): a falsy (empty) text is
rejected, otherwise the text must match the CJK regex and have JS length at
most 100. The `typeof text !== 'string'` guard is discharged by typing. -/
def isValidChineseText (text : String) : Bool :=
  if text == "" then false
  else text.data.any isChineseChar && jsStringLength text ≤ 100

/-! ## Preload jobs (server.js lines 262-270 and their later mutations) -/

/-- One entry of a preload job's `results` array (server.js lines 301-305). -/
structure PreloadResult where
  text : String
  audioUrl : String
  cached : Bool
deriving Repr, DecidableEq

/-- A preload job as created by `POST /preload` (server.js lines 262-270) and
mutated by the background pass: `status` is one of the strings
`"processing"`, `"completed"`, `"failed"`; `completedTime`,
`processingDuration` and `error` are absent (`none`) until set. -/
structure PreloadJob where
  id : String
  texts : List String
  language : String
  status : String
  results : List PreloadResult
  startTime : Nat
  timestamp : Nat
  completedTime : Option Nat
  processingDuration : Option Nat
  error : Option String
deriving Repr, DecidableEq

/-- The job registry: a JS `Map` from preload id to job, in insertion order. -/
abbrev PreloadQueue := List (String × PreloadJob)

/-- The shared mutable server state the claims are about: `audioCache` and
`preloadQueue` (server.js lines 19-20). The `requestMetrics` map is averaging
glue with no bearing on any claim and is not modelled. -/
structure ServerState where
  audioCache : AudioCache
  preloadQueue : PreloadQueue
deriving Repr, DecidableEq

/-! ## POST /audio (server.js lines 115-184, part_000 lines 117-190) -/

/-- Response of `POST /audio`: the two 400 validation bodies, or the success
body (`responseTime` and the constant `success: true` field are omitted). -/
inductive AudioResponse where
  | invalidText : AudioResponse
  | unsupportedLanguage : AudioResponse
  | ok (text : String) (language : String) (audioUrl : String) (cached : Bool) : AudioResponse
deriving Repr, DecidableEq

/-- `POST /audio` in `src/server.js` (lines 115-184): validate, look up the
cache key, and on a miss insert a freshly resolved record; the returned
`audioUrl` is the indirect proxy reference in both the hit and miss branch.
`language` is `none` when the request body omits it (the JS destructuring
default). -/
def postAudio (now : Nat) (text : String) (language : Option String)
    (st : ServerState) : AudioResponse × ServerState :=
  let lang := language.getD AUDIO_CONFIG_DEFAULT_LANGUAGE
  if !isValidChineseText text then (.invalidText, st)
  else if !(AUDIO_CONFIG_SUPPORTED_LANGUAGES.contains lang) then (.unsupportedLanguage, st)
  else
    let cacheKey := generateCacheKey text lang
    match jsMapGet cacheKey st.audioCache with
    | some _ => (.ok text lang ("/play/" ++ cacheKey) true, st)
    | none =>
      let audioUrl := generateAudioUrl text lang
      let cache := putRecord AUDIO_CONFIG_MAX_CACHE_SIZE cacheKey
        ⟨audioUrl, text, lang, now⟩ st.audioCache
      (.ok text lang ("/play/" ++ cacheKey) false, { st with audioCache := cache })

/-- `POST /audio` in `src/unnamed/part_000` (lines 117-190): identical to
`postAudio` except that the returned `audioUrl` is the direct locator — the
cached record's `audioUrl` on a hit, the freshly generated external URL on a
miss. -/
def postAudioDirect (now : Nat) (text : String) (language : Option String)
    (st : ServerState) : AudioResponse × ServerState :=
  let lang := language.getD AUDIO_CONFIG_DEFAULT_LANGUAGE
  if !isValidChineseText text then (.invalidText, st)
  else if !(AUDIO_CONFIG_SUPPORTED_LANGUAGES.contains lang) then (.unsupportedLanguage, st)
  else
    let cacheKey := generateCacheKey text lang
    match jsMapGet cacheKey st.audioCache with
    | some cachedData => (.ok text lang cachedData.audioUrl true, st)
    | none =>
      let audioUrl := generateAudioUrl text lang
      let cache := putRecord AUDIO_CONFIG_MAX_CACHE_SIZE cacheKey
        ⟨audioUrl, text, lang, now⟩ st.audioCache
      (.ok text lang audioUrl false, { st with audioCache := cache })

/-! ## GET /play/:cacheKey (server.js lines 187-224) -/

/-- Outcome of the single upstream `https.get` attempt, supplied by the
environment: the response arrives, the request errors, or the 10-second
timeout fires. -/
inductive UpstreamOutcome where
  | success : UpstreamOutcome
  | transportError (msg : String) : UpstreamOutcome
  | timeout : UpstreamOutcome
deriving Repr, DecidableEq

/-- Response of `GET /play/:cacheKey`: the 404 body, the streamed bytes with
their `Content-Type` and `Cache-Control` headers, the 500 body carrying the
underlying error message, or the 504 body. -/
inductive PlayResponse where
  | notFound : PlayResponse
  | streamOk (contentType : String) (cacheControl : String) : PlayResponse
  | upstreamFailure (msg : String) : PlayResponse
  | timedOut : PlayResponse
deriving Repr, DecidableEq

/-- `GET /play/:cacheKey` (server.js lines 187-224). Besides the response, the
model returns the list of URLs fetched upstream (empty or a singleton: the
handler issues at most one `https.get`, with no retry) and the cache, which
the handler never writes. -/
def getPlay (cacheKey : String) (outcome : UpstreamOutcome)
    (cache : AudioCache) : PlayResponse × List String × AudioCache :=
  match jsMapGet cacheKey cache with
  | none => (.notFound, [], cache)
  | some cachedData =>
    let resp : PlayResponse :=
      match outcome with
      | .success => .streamOk "audio/mpeg" "public, max-age=3600"
      | .transportError msg => .upstreamFailure msg
      | .timeout => .timedOut
    (resp, [cachedData.audioUrl], cache)

/-! ## POST /preload (server.js lines 227-342) -/

/-- Response of `POST /preload`: the three 400 validation bodies, or the
acceptance body (`responseTime` omitted). -/
inductive PreloadResponse where
  | invalidTexts : PreloadResponse
  | tooManyTexts : PreloadResponse
  | invalidText (text : String) : PreloadResponse
  | unsupportedLanguage : PreloadResponse
  | accepted (preloadId : String) (status : String) (textsCount : Nat)
      (language : String) (statusUrl : String) : PreloadResponse
deriving Repr, DecidableEq

/-- Whether a `POST /preload` response is one of the 400 validation errors. -/
def PreloadResponse.isValidationError : PreloadResponse → Bool
  | .accepted _ _ _ _ _ => false
  | _ => true

/-- `POST /preload` (server.js lines 227-342): the synchronous part of the
handler — validation in source order, then creation of the job in state
`"processing"` and its registration under a fresh id. `newId` stands for the
`crypto.randomUUID()` result; the asynchronous resolution pass scheduled via
`setImmediate` is modelled separately by `runPreloadPass`. -/
def postPreload (now : Nat) (texts : List String) (language : Option String)
    (newId : String) (st : ServerState) : PreloadResponse × ServerState :=
  let lang := language.getD AUDIO_CONFIG_DEFAULT_LANGUAGE
  if texts.length == 0 then (.invalidTexts, st)
  else if 10 < texts.length then (.tooManyTexts, st)
  else
    match texts.find? (fun t => !isValidChineseText t) with
    | some t => (.invalidText t, st)
    | none =>
      if !(AUDIO_CONFIG_SUPPORTED_LANGUAGES.contains lang) then (.unsupportedLanguage, st)
      else
        let preloadData : PreloadJob :=
          ⟨newId, texts, lang, "processing", [], now, now, none, none, none⟩
        ( .accepted newId "processing" texts.length lang ("/preload/" ++ newId),
          { st with preloadQueue := jsMapSet newId preloadData st.preloadQueue } )

/-! ## The background resolution pass (server.js lines 274-318)

The loop body calls `generateAudioUrl`, the interface to the external TTS
resolver; per the spec (section 4.3) that collaborator may fail, and the
handler's `catch` (lines 313-317) turns any such failure into a `"failed"`
job. The pass is therefore parameterized over a `resolve` function returning
`Except`, whose happy instance is `fun t l => Except.ok (generateAudioUrl t l)`. -/

/-- The `for (const text of texts)` loop of the pass (server.js lines 278-306,
`/play/` reference variant): thread the cache through the iterations and
either produce the `results` array in input order or stop at the first
resolver failure, keeping the cache insertions already performed. -/
def preloadLoop (resolve : String → String → Except String String) (now : Nat)
    (language : String) :
    List String → AudioCache → Except String (List PreloadResult) × AudioCache
  | [], cache => (.ok [], cache)
  | text :: rest, cache =>
    let cacheKey := generateCacheKey text language
    if jsMapHas cacheKey cache then
      match preloadLoop resolve now language rest cache with
      | (.ok results, c) => (.ok (⟨text, "/play/" ++ cacheKey, true⟩ :: results), c)
      | (.error e, c) => (.error e, c)
    else
      match resolve text language with
      | .error e => (.error e, cache)
      | .ok externalUrl =>
        let cache1 := putRecord AUDIO_CONFIG_MAX_CACHE_SIZE cacheKey
          ⟨externalUrl, text, language, now⟩ cache
        match preloadLoop resolve now language rest cache1 with
        | (.ok results, c) => (.ok (⟨text, "/play/" ++ cacheKey, false⟩ :: results), c)
        | (.error e, c) => (.error e, c)

/-- The whole `setImmediate` pass (server.js lines 274-318): on success the
job becomes `"completed"` with the results, completion time and duration; on
failure it becomes `"failed"` with the error message captured, its `results`
field left untouched. `now` is the time at which the pass finishes. -/
def runPreloadPass (resolve : String → String → Except String String) (now : Nat)
    (job : PreloadJob) (cache : AudioCache) : PreloadJob × AudioCache :=
  match preloadLoop resolve now job.language job.texts cache with
  | (.ok results, c) =>
    ({ job with
        status := "completed", results := results,
        completedTime := some now, processingDuration := some (now - job.startTime) }, c)
  | (.error e, c) => ({ job with status := "failed", error := some e }, c)

/-! ## GET /preload/:preloadId (server.js lines 345-389) -/

/-- Response of `GET /preload/:preloadId`: the 404 body, or the status body
with exactly the fields the handler serializes (server.js lines 368-378);
note the body carries no `error` field. -/
inductive StatusResponse where
  | notFound (preloadId : String) : StatusResponse
  | ok (preloadId : String) (status : String) (results : List PreloadResult)
      (textsCount : Nat) (language : String) (processingDuration : Option Nat)
      (timestamp : Nat) : StatusResponse
deriving Repr, DecidableEq

/-- `GET /preload/:preloadId` (server.js lines 345-389): 404 when the id is
absent; otherwise, if the job is terminal and `now - startTime > 300000`, it
is deleted from the registry, and in every present case the job's state is
serialized into the response. -/
def getPreloadStatus (now : Nat) (preloadId : String)
    (st : ServerState) : StatusResponse × ServerState :=
  match jsMapGet preloadId st.preloadQueue with
  | none => (.notFound preloadId, st)
  | some preloadData =>
    let queue :=
      if (preloadData.status == "completed" || preloadData.status == "failed")
          && 300000 < now - preloadData.startTime then
        jsMapDelete preloadId st.preloadQueue
      else st.preloadQueue
    ( .ok preloadId preloadData.status preloadData.results preloadData.texts.length
        preloadData.language preloadData.processingDuration preloadData.timestamp,
      { st with preloadQueue := queue } )

/-! ## The periodic sweep (server.js lines 488-497, part_000 lines 458-467) -/

/-- One run of the `setInterval` sweep, identical in both source variants:
iterate over the registry and delete every entry with
`now - data.startTime > 300000`, regardless of its status. Deleting during a
JS `Map` iteration is safe and visits the remaining entries, so the run is
the fold of the deletions over the entries selected by the cutoff test. -/
def sweepPreloadQueue (now : Nat) (q : PreloadQueue) : PreloadQueue :=
  (jsMapKeys (q.filter (fun e => 300000 < now - e.2.startTime))).foldl
    (fun acc k => jsMapDelete k acc) q

/-! ## Helper lemmas about the JS map model -/

/-- Folding deletions over a list of keys filters out exactly those keys. -/
theorem foldl_jsMapDelete (ks : List String) (m : List (String × α)) :
    ks.foldl (fun acc k => jsMapDelete k acc) m
      = m.filter (fun e => decide (e.1 ∉ ks)) := by
  induction ks generalizing m with
  | nil => simp [List.filter_eq_self]
  | cons k ks ih =>
    have step : (k :: ks).foldl (fun acc k => jsMapDelete k acc) m
        = ks.foldl (fun acc k => jsMapDelete k acc) (jsMapDelete k m) := rfl
    rw [step, ih, jsMapDelete, List.filter_filter]
    refine List.filter_congr fun e _ => ?_
    by_cases h1 : e.1 = k <;> by_cases h2 : e.1 ∈ ks <;>
      simp [h1, h2, List.mem_cons]

/-- Entries whose key avoids a list of keys are kept by the corresponding
deletions; with `Nodup` keys, deleting the keys of the first `n` entries
leaves exactly the suffix. -/
theorem foldl_jsMapDelete_take (n : Nat) (m : List (String × α))
    (hnd : (jsMapKeys m).Nodup) :
    (jsMapKeys (m.take n)).foldl (fun acc k => jsMapDelete k acc) m = m.drop n := by
  rw [foldl_jsMapDelete]
  have hsplit : m = m.take n ++ m.drop n := (List.take_append_drop n m).symm
  have hkeys : jsMapKeys m = jsMapKeys (m.take n) ++ jsMapKeys (m.drop n) := by
    rw [jsMapKeys, jsMapKeys, jsMapKeys, ← List.map_append, List.take_append_drop]
  have hdisj : List.Disjoint (jsMapKeys (m.take n)) (jsMapKeys (m.drop n)) := by
    have := hnd
    rw [hkeys] at this
    exact List.disjoint_of_nodup_append this
  have hfsplit : m.filter (fun e => decide (e.1 ∉ jsMapKeys (m.take n)))
      = (m.take n).filter (fun e => decide (e.1 ∉ jsMapKeys (m.take n)))
        ++ (m.drop n).filter (fun e => decide (e.1 ∉ jsMapKeys (m.take n))) := by
    rw [← List.filter_append, List.take_append_drop]
  have h1 : (m.take n).filter (fun e => decide (e.1 ∉ jsMapKeys (m.take n))) = [] := by
    rw [List.filter_eq_nil_iff]
    intro e he
    simp only [decide_eq_true_eq, not_not]
    exact List.mem_map_of_mem Prod.fst he
  have h2 : (m.drop n).filter (fun e => decide (e.1 ∉ jsMapKeys (m.take n))) = m.drop n := by
    rw [List.filter_eq_self]
    intro e he
    simp only [decide_eq_true_eq]
    exact fun hmem => hdisj hmem (List.mem_map_of_mem Prod.fst he)
  rw [hfsplit, h1, h2, List.nil_append]

/-- `cleanCache` at or above capacity drops exactly the oldest
`capacity / 5` entries. -/
theorem cleanCache_eq_drop (cap : Nat) (m : AudioCache)
    (hnd : (jsMapKeys m).Nodup) (hle : cap ≤ m.length) :
    cleanCache cap m = m.drop (cap / 5) := by
  rw [cleanCache, if_pos hle]
  exact foldl_jsMapDelete_take (cap / 5) m hnd

/-- `cleanCache` below capacity is the identity. -/
theorem cleanCache_eq_self (cap : Nat) (m : AudioCache) (hlt : m.length < cap) :
    cleanCache cap m = m := by
  rw [cleanCache, if_neg (Nat.not_le.mpr hlt)]

/-- `jsMapSet` on an absent key appends the new entry. -/
theorem jsMapSet_of_not_has (k : String) (v : α) (m : List (String × α))
    (h : jsMapHas k m = false) : jsMapSet k v m = m ++ [(k, v)] := by
  rw [jsMapSet, h]
  rfl

/-- A key absent from a map is absent from any suffix of it. -/
theorem jsMapHas_drop_eq_false (k : String) (m : List (String × α)) (n : Nat)
    (h : jsMapHas k m = false) : jsMapHas k (m.drop n) = false := by
  rw [jsMapHas] at h ⊢
  rw [List.any_eq_false] at h ⊢
  exact fun e he => h e (List.mem_of_mem_drop he)

/-! ## C1: bounded-cache eviction policy -/

/-- C1: for every put of a record under a fresh key into the bounded cache
(with pairwise-distinct stored keys, the `Map` invariant): if
`size ≥ capacity` before the insertion, exactly `capacity / 5`
(= `floor(capacity × 0.2)`) entries — the oldest by insertion order, i.e. the
prefix of the entry list — are evicted before the new entry is appended; if
`size < capacity`, no entry is evicted; and whenever the size invariant
`size ≤ capacity` held before and `5 ≤ capacity`, it holds after. -/
theorem putRecord_evicts_oldest_fifth (cap : Nat) (k : String) (rec : CacheRecord)
    (m : AudioCache) (hnd : (jsMapKeys m).Nodup) (hnew : jsMapHas k m = false) :
    (cap ≤ m.length → putRecord cap k rec m = m.drop (cap / 5) ++ [(k, rec)]) ∧
    (m.length < cap → putRecord cap k rec m = m ++ [(k, rec)]) ∧
    (m.length ≤ cap → 5 ≤ cap → (putRecord cap k rec m).length ≤ cap) := by
  have h1 : cap ≤ m.length → putRecord cap k rec m = m.drop (cap / 5) ++ [(k, rec)] := by
    intro hle
    rw [putRecord, cleanCache_eq_drop cap m hnd hle,
      jsMapSet_of_not_has _ _ _ (jsMapHas_drop_eq_false k m _ hnew)]
  have h2 : m.length < cap → putRecord cap k rec m = m ++ [(k, rec)] := by
    intro hlt
    rw [putRecord, cleanCache_eq_self cap m hlt, jsMapSet_of_not_has _ _ _ hnew]
  refine ⟨h1, h2, fun hle h5 => ?_⟩
  rcases Nat.lt_or_ge m.length cap with hlt | hge
  · rw [h2 hlt]
    simp only [List.length_append, List.length_cons, List.length_nil]
    omega
  · rw [h1 hge]
    simp only [List.length_append, List.length_drop, List.length_cons, List.length_nil]
    have hdiv1 : 1 ≤ cap / 5 := (Nat.one_le_div_iff (by omega)).mpr h5
    have hdiv2 : cap / 5 ≤ cap := Nat.div_le_self cap 5
    omega

/-- C1 witness: the concrete scenario at capacity 5 — after inserting the
five distinct keys A..E in order, putting F evicts exactly A, leaving
B, C, D, E, F. -/
theorem putRecord_evicts_oldest_fifth_witness :
    (jsMapKeys ([("A", ⟨"", "", "", 0⟩), ("B", ⟨"", "", "", 0⟩), ("C", ⟨"", "", "", 0⟩),
        ("D", ⟨"", "", "", 0⟩), ("E", ⟨"", "", "", 0⟩)] : AudioCache)).Nodup ∧
    jsMapHas "F" ([("A", ⟨"", "", "", 0⟩), ("B", ⟨"", "", "", 0⟩), ("C", ⟨"", "", "", 0⟩),
        ("D", ⟨"", "", "", 0⟩), ("E", ⟨"", "", "", 0⟩)] : AudioCache) = false ∧
    putRecord 5 "F" ⟨"", "", "", 0⟩
        [("A", ⟨"", "", "", 0⟩), ("B", ⟨"", "", "", 0⟩), ("C", ⟨"", "", "", 0⟩),
          ("D", ⟨"", "", "", 0⟩), ("E", ⟨"", "", "", 0⟩)]
      = [("B", ⟨"", "", "", 0⟩), ("C", ⟨"", "", "", 0⟩), ("D", ⟨"", "", "", 0⟩),
          ("E", ⟨"", "", "", 0⟩), ("F", ⟨"", "", "", 0⟩)] ∧
    (putRecord 5 "F" ⟨"", "", "", 0⟩
        [("A", ⟨"", "", "", 0⟩), ("B", ⟨"", "", "", 0⟩), ("C", ⟨"", "", "", 0⟩),
          ("D", ⟨"", "", "", 0⟩), ("E", ⟨"", "", "", 0⟩)]).length ≤ 5 := by
  have h := putRecord_evicts_oldest_fifth 5 "F" ⟨"", "", "", 0⟩
    [("A", ⟨"", "", "", 0⟩), ("B", ⟨"", "", "", 0⟩), ("C", ⟨"", "", "", 0⟩),
      ("D", ⟨"", "", "", 0⟩), ("E", ⟨"", "", "", 0⟩)] (by decide) (by decide)
  refine ⟨by decide, by decide, ?_, h.2.2 (by decide) (by decide)⟩
  rw [h.1 (by decide)]
  decide

/-! ## C7: overwriting an existing key -/

/-- C7 counterexample: overwriting does NOT count as a new insertion for
eviction ordering. Start from a cache holding A then B, overwrite A (per the
claim, A would now be the most recently inserted entry, so B would become the
oldest), fill with C, D, E up to capacity 5, then insert F: the eviction
removes A, not B — A kept its original (oldest) position. -/
theorem overwrite_keeps_eviction_position_counterexample :
    jsMapHas "A"
        (putRecord 5 "F" ⟨"", "", "", 0⟩
          (putRecord 5 "E" ⟨"", "", "", 0⟩
            (putRecord 5 "D" ⟨"", "", "", 0⟩
              (putRecord 5 "C" ⟨"", "", "", 0⟩
                (putRecord 5 "A" ⟨"u2", "", "", 1⟩
                  [("A", ⟨"u1", "", "", 0⟩), ("B", ⟨"", "", "", 0⟩)]))))) = false ∧
    jsMapHas "B"
        (putRecord 5 "F" ⟨"", "", "", 0⟩
          (putRecord 5 "E" ⟨"", "", "", 0⟩
            (putRecord 5 "D" ⟨"", "", "", 0⟩
              (putRecord 5 "C" ⟨"", "", "", 0⟩
                (putRecord 5 "A" ⟨"u2", "", "", 1⟩
                  [("A", ⟨"u1", "", "", 0⟩), ("B", ⟨"", "", "", 0⟩)]))))) = true := by
  decide

/-- C7 amended: putting a record under a key that is already present updates
the stored record in place but keeps the entry's original insertion position
(JS `Map` semantics) — it is NOT treated as a new insertion for eviction
ordering, so the key is later evicted according to its original position. -/
theorem putRecord_overwrite_keeps_position (cap : Nat) (k : String) (rec : CacheRecord)
    (m : AudioCache) (hlt : m.length < cap) (hhas : jsMapHas k m = true) :
    putRecord cap k rec m = m.map (fun e => if e.1 == k then (k, rec) else e) := by
  rw [putRecord, cleanCache_eq_self cap m hlt, jsMapSet, hhas]
  rfl

/-- C7 amended, witness: overwriting A in a cache holding A then B leaves A
in first (oldest) position with the updated record. -/
theorem putRecord_overwrite_keeps_position_witness :
    ([("A", ⟨"u1", "", "", 0⟩), ("B", ⟨"", "", "", 0⟩)] : AudioCache).length < 5 ∧
    jsMapHas "A" ([("A", ⟨"u1", "", "", 0⟩), ("B", ⟨"", "", "", 0⟩)] : AudioCache) = true ∧
    putRecord 5 "A" ⟨"u2", "", "", 1⟩ [("A", ⟨"u1", "", "", 0⟩), ("B", ⟨"", "", "", 0⟩)]
      = [("A", ⟨"u2", "", "", 1⟩), ("B", ⟨"", "", "", 0⟩)] := by
  refine ⟨by decide, by decide, ?_⟩
  rw [putRecord_overwrite_keeps_position 5 "A" ⟨"u2", "", "", 1⟩
    [("A", ⟨"u1", "", "", 0⟩), ("B", ⟨"", "", "", 0⟩)] (by decide) (by decide)]
  rfl

/-! ## Helper lemmas about the sweep and the status endpoint -/

/-- The sweep is the filter keeping the entries within the retention window:
with `Nodup` keys (the `Map` invariant), folding the deletions of the keys of
the over-age entries removes exactly those entries. -/
theorem sweepPreloadQueue_eq_filter (now : Nat) (q : PreloadQueue)
    (hnd : (jsMapKeys q).Nodup) :
    sweepPreloadQueue now q
      = q.filter (fun e => decide (now - e.2.startTime ≤ 300000)) := by
  rw [sweepPreloadQueue, foldl_jsMapDelete]
  have hnd' : (q.map Prod.fst).Nodup := hnd
  refine List.filter_congr fun e he => ?_
  by_cases hc : 300000 < now - e.2.startTime
  · have hmem : e.1 ∈ jsMapKeys (q.filter (fun e => 300000 < now - e.2.startTime)) :=
      List.mem_map_of_mem Prod.fst (List.mem_filter.mpr ⟨he, by simpa using hc⟩)
    simp [hmem, hc, Nat.not_le.mpr hc]
  · have hnot : e.1 ∉ jsMapKeys (q.filter (fun e => 300000 < now - e.2.startTime)) := by
      intro hmem
      rw [jsMapKeys, List.mem_map] at hmem
      obtain ⟨e2, he2, hfst⟩ := hmem
      rw [List.mem_filter] at he2
      have : e2 = e := List.inj_on_of_nodup_map hnd' he2.1 he hfst
      rw [this] at he2
      exact hc (by simpa using he2.2)
    simp [hnot, Nat.not_lt.mp hc]

/-- One sweep run on a singleton registry keeps or deletes the job purely by
the age test. -/
theorem sweepPreloadQueue_singleton (now : Nat) (id : String) (j : PreloadJob) :
    sweepPreloadQueue now [(id, j)]
      = if 300000 < now - j.startTime then [] else [(id, j)] := by
  by_cases h : 300000 < now - j.startTime
  · simp [sweepPreloadQueue, jsMapKeys, jsMapDelete, List.filter_cons, h]
  · simp [sweepPreloadQueue, jsMapKeys, List.filter_cons, h]

/-- `GET /preload/:preloadId` on an id absent from the registry. -/
theorem getPreloadStatus_absent (now : Nat) (pid : String) (st : ServerState)
    (h : jsMapGet pid st.preloadQueue = none) :
    getPreloadStatus now pid st = (.notFound pid, st) := by
  simp only [getPreloadStatus, h]

/-- `GET /preload/:preloadId` on a present id: the job's state is serialized
and the registry entry is conditionally deleted. -/
theorem getPreloadStatus_present (now : Nat) (pid : String) (st : ServerState)
    (j : PreloadJob) (h : jsMapGet pid st.preloadQueue = some j) :
    getPreloadStatus now pid st
      = ( .ok pid j.status j.results j.texts.length j.language
            j.processingDuration j.timestamp,
          { st with preloadQueue :=
              if (j.status == "completed" || j.status == "failed")
                  && decide (300000 < now - j.startTime) then
                jsMapDelete pid st.preloadQueue
              else st.preloadQueue } ) := by
  simp only [getPreloadStatus, h]

/-! ## C2: what the periodic sweep removes -/

/-- C2 counterexample: the sweep removes a job that is still in `"processing"`
state once it is older than the window — the claim says such a job is never
removed. Here a processing job started at time 0 is swept at time 300001. -/
theorem sweep_removes_processing_job_counterexample :
    (⟨"j", ["x"], "zh-CN", "processing", [], 0, 0, none, none, none⟩ : PreloadJob).status
      = "processing" ∧
    sweepPreloadQueue 300001
      [("j", ⟨"j", ["x"], "zh-CN", "processing", [], 0, 0, none, none, none⟩)] = [] := by
  decide

/-- C2 amended: the periodic sweep removes exactly those jobs whose age
(measured from `startTime`) exceeds the 5-minute retention window,
regardless of their status — terminal and processing jobs alike. -/
theorem sweep_removes_all_old_jobs (now : Nat) (q : PreloadQueue)
    (hnd : (jsMapKeys q).Nodup) :
    ∀ e : String × PreloadJob,
      e ∈ sweepPreloadQueue now q ↔ e ∈ q ∧ now - e.2.startTime ≤ 300000 := by
  intro e
  rw [sweepPreloadQueue_eq_filter now q hnd, List.mem_filter]
  simp

/-- C2 amended, witness: at time 400000, a queue holding a terminal job
started at 0 and a processing job started at 350000 keeps exactly the young
one. -/
theorem sweep_removes_all_old_jobs_witness :
    (jsMapKeys ([("old", ⟨"old", ["x"], "zh-CN", "completed", [], 0, 0, none, none, none⟩),
        ("new", ⟨"new", ["x"], "zh-CN", "processing", [], 350000, 350000, none, none, none⟩)]
        : PreloadQueue)).Nodup ∧
    (("new", (⟨"new", ["x"], "zh-CN", "processing", [], 350000, 350000, none, none, none⟩
        : PreloadJob)) ∈
      sweepPreloadQueue 400000
        [("old", ⟨"old", ["x"], "zh-CN", "completed", [], 0, 0, none, none, none⟩),
          ("new", ⟨"new", ["x"], "zh-CN", "processing", [], 350000, 350000, none, none, none⟩)]
      ↔ ("new", (⟨"new", ["x"], "zh-CN", "processing", [], 350000, 350000, none, none, none⟩
          : PreloadJob)) ∈
        ([("old", ⟨"old", ["x"], "zh-CN", "completed", [], 0, 0, none, none, none⟩),
          ("new", ⟨"new", ["x"], "zh-CN", "processing", [], 350000, 350000, none, none, none⟩)]
          : PreloadQueue)
        ∧ 400000 - 350000 ≤ 300000) :=
  ⟨by decide,
    sweep_removes_all_old_jobs 400000
      [("old", ⟨"old", ["x"], "zh-CN", "completed", [], 0, 0, none, none, none⟩),
        ("new", ⟨"new", ["x"], "zh-CN", "processing", [], 350000, 350000, none, none, none⟩)]
      (by decide)
      ("new", ⟨"new", ["x"], "zh-CN", "processing", [], 350000, 350000, none, none, none⟩)⟩

/-! ## C10: both deletion paths measure age from startTime -/

/-- C10: both job-deletion paths measure a job's age from its `startTime`
creation instant with the 300000 ms cutoff, never from `completedTime`: the
sweep deletes a (singleton-registry) job iff `now - startTime > 300000`;
changing `completedTime` changes nothing but that field in the sweep's
output; the read-triggered lazy deletion fires, for a terminal job, iff the
same test holds; and consequently a job started at `s` whose pass took
`T ≤ 300000` ms is already deleted by a sweep `300000 - T + 1` ms after its
completion instant `s + T`. -/
theorem deletion_age_measured_from_startTime (now : Nat) (id : String) (j : PreloadJob) :
    (sweepPreloadQueue now [(id, j)] = [] ↔ 300000 < now - j.startTime) ∧
    (∀ t, sweepPreloadQueue now [(id, { j with completedTime := t })]
        = (sweepPreloadQueue now [(id, j)]).map
            (fun e => (e.1, { e.2 with completedTime := t }))) ∧
    (j.status = "completed" ∨ j.status = "failed" →
      ((getPreloadStatus now id ⟨[], [(id, j)]⟩).2.preloadQueue = []
        ↔ 300000 < now - j.startTime)) ∧
    (∀ s T, j.startTime = s → T ≤ 300000 →
      sweepPreloadQueue (s + T + (300000 - T) + 1) [(id, j)] = []) := by
  have hget : jsMapGet id [(id, j)] = some j := by simp [jsMapGet]
  refine ⟨?_, ?_, ?_, ?_⟩
  · rw [sweepPreloadQueue_singleton]
    by_cases h : 300000 < now - j.startTime <;> simp [h]
  · intro t
    rw [sweepPreloadQueue_singleton, sweepPreloadQueue_singleton]
    by_cases h : 300000 < now - j.startTime <;> simp [h]
  · intro hterm
    rw [getPreloadStatus_present now id ⟨[], [(id, j)]⟩ j hget]
    have hb : (j.status == "completed" || j.status == "failed") = true := by
      rcases hterm with h | h <;> simp [h]
    by_cases h : 300000 < now - j.startTime
    · simp [hb, h, jsMapDelete]
    · simp [hb, h]
  · intro s T hs hT
    subst hs
    rw [sweepPreloadQueue_singleton, if_pos (by omega)]

/-- C10 witness: a job started at 0 and completed at 100 is deleted by the
sweep at time 300001 (that is, 299901 ms after completing), and the lazy
path removes it at the same threshold. -/
theorem deletion_age_measured_from_startTime_witness :
    (sweepPreloadQueue 300001
        [("j", ⟨"j", ["x"], "zh-CN", "completed", [], 0, 0, some 100, some 100, none⟩)] = []
      ↔ 300000 < 300001 -
          (⟨"j", ["x"], "zh-CN", "completed", [], 0, 0, some 100, some 100, none⟩
            : PreloadJob).startTime) ∧
    ((getPreloadStatus 300001 "j"
        ⟨[], [("j", ⟨"j", ["x"], "zh-CN", "completed", [], 0, 0, some 100, some 100, none⟩)]⟩
        ).2.preloadQueue = []
      ↔ 300000 < 300001 -
          (⟨"j", ["x"], "zh-CN", "completed", [], 0, 0, some 100, some 100, none⟩
            : PreloadJob).startTime) ∧
    sweepPreloadQueue (0 + 100 + (300000 - 100) + 1)
      [("j", ⟨"j", ["x"], "zh-CN", "completed", [], 0, 0, some 100, some 100, none⟩)] = [] := by
  have h := deletion_age_measured_from_startTime 300001 "j"
    ⟨"j", ["x"], "zh-CN", "completed", [], 0, 0, some 100, some 100, none⟩
  exact ⟨h.1, h.2.2.1 (Or.inl rfl), h.2.2.2 0 100 rfl (by decide)⟩

/-! ## C3: status query, 404 and read-triggered expiry -/

/-- C3 counterexample: a terminal job whose age exceeds the 5-minute window
(started at 0, queried at 300001) is reported back as a normal state
response — not as a 404 — even though the read deletes it. -/
theorem expired_job_reported_counterexample :
    (getPreloadStatus 300001 "j"
        ⟨[], [("j", ⟨"j", ["x"], "zh-CN", "completed", [], 0, 0, some 100, some 100, none⟩)]⟩).1
      = StatusResponse.ok "j" "completed" [] 1 "zh-CN" (some 100) 0 ∧
    (getPreloadStatus 300001 "j"
        ⟨[], [("j", ⟨"j", ["x"], "zh-CN", "completed", [], 0, 0, some 100, some 100, none⟩)]⟩
        ).2.preloadQueue = [] := by
  decide

/-- C3 amended: `GET /preload/{id}` returns 404 exactly when the id is absent
from the registry; when the id is present — expired or not — the job's
current state is returned as a normal response, and when the job is terminal
with age over the 5-minute window it is additionally deleted from the
registry as a side effect of the read (so only subsequent queries see 404). -/
theorem getPreloadStatus_spec (now : Nat) (pid : String) (st : ServerState) :
    (jsMapGet pid st.preloadQueue = none →
        getPreloadStatus now pid st = (.notFound pid, st)) ∧
    (∀ j, jsMapGet pid st.preloadQueue = some j →
        (getPreloadStatus now pid st).1
          = .ok pid j.status j.results j.texts.length j.language
              j.processingDuration j.timestamp
        ∧ (getPreloadStatus now pid st).2.preloadQueue
            = if (j.status = "completed" ∨ j.status = "failed") ∧ 300000 < now - j.startTime
              then jsMapDelete pid st.preloadQueue
              else st.preloadQueue) := by
  constructor
  · intro h
    exact getPreloadStatus_absent now pid st h
  · intro j h
    rw [getPreloadStatus_present now pid st j h]
    refine ⟨rfl, ?_⟩
    simp only [Bool.and_eq_true, Bool.or_eq_true, beq_iff_eq, decide_eq_true_eq]

/-- C3 amended, witness: the absent case 404s without touching the state, and
a fresh processing job is reported back with the registry unchanged. -/
theorem getPreloadStatus_spec_witness :
    jsMapGet "x" (([] : PreloadQueue)) = none ∧
    getPreloadStatus 0 "x" ⟨[], []⟩ = (.notFound "x", ⟨[], []⟩) ∧
    jsMapGet "j"
        ([("j", ⟨"j", ["x"], "zh-CN", "processing", [], 0, 0, none, none, none⟩)]
          : PreloadQueue)
      = some ⟨"j", ["x"], "zh-CN", "processing", [], 0, 0, none, none, none⟩ ∧
    (getPreloadStatus 5 "j"
        ⟨[], [("j", ⟨"j", ["x"], "zh-CN", "processing", [], 0, 0, none, none, none⟩)]⟩).1
      = StatusResponse.ok "j" "processing" [] 1 "zh-CN" none 0 := by
  have h1 := (getPreloadStatus_spec 0 "x" ⟨[], []⟩).1 (by decide)
  have h2 := (getPreloadStatus_spec 5 "j"
      ⟨[], [("j", ⟨"j", ["x"], "zh-CN", "processing", [], 0, 0, none, none, none⟩)]⟩).2
    ⟨"j", ["x"], "zh-CN", "processing", [], 0, 0, none, none, none⟩ (by decide)
  exact ⟨by decide, h1, by decide, h2.1⟩

/-! ## C6: failure errors are captured on the job but not serialized -/

/-- C6 counterexample: two failed jobs that differ only in their captured
error message produce identical `GET /preload/{id}` responses — the status
body carries no error information, so the error is not available to the
caller through the status query. -/
theorem status_response_omits_error_counterexample :
    (⟨"j", ["x"], "zh-CN", "failed", [], 0, 0, none, none, some "boom"⟩
        : PreloadJob).error = some "boom" ∧
    (⟨"j", ["x"], "zh-CN", "failed", [], 0, 0, none, none, some "other"⟩
        : PreloadJob).error = some "other" ∧
    (getPreloadStatus 5 "j"
        ⟨[], [("j", ⟨"j", ["x"], "zh-CN", "failed", [], 0, 0, none, none, some "boom"⟩)]⟩).1
      = (getPreloadStatus 5 "j"
        ⟨[], [("j", ⟨"j", ["x"], "zh-CN", "failed", [], 0, 0, none, none, some "other"⟩)]⟩).1 := by
  decide

/-- C6 amended: when a preload resolution pass fails, the job transitions to
`"failed"` with the failure's message captured in the job's `error` field —
but the `GET /preload/{id}` response body omits that field, so the message
itself is not reported to the caller (the response is invariant under the
job's `error` field; only the failed status is visible). -/
theorem preload_error_captured_not_reported
    (resolve : String → String → Except String String) (now : Nat)
    (job : PreloadJob) (cache : AudioCache) (e : String) (c : AudioCache)
    (h : preloadLoop resolve now job.language job.texts cache = (.error e, c)) :
    (runPreloadPass resolve now job cache).1.status = "failed" ∧
    (runPreloadPass resolve now job cache).1.error = some e ∧
    (∀ now2 id msg, (getPreloadStatus now2 id
          ⟨[], [(id, (runPreloadPass resolve now job cache).1)]⟩).1
        = (getPreloadStatus now2 id
          ⟨[], [(id, { (runPreloadPass resolve now job cache).1 with error := msg })]⟩).1) := by
  have hrun : runPreloadPass resolve now job cache
      = ({ job with status := "failed", error := some e }, c) := by
    rw [runPreloadPass, h]
  rw [hrun]
  refine ⟨rfl, rfl, ?_⟩
  intro now2 id msg
  have hget1 : jsMapGet id [(id, ({ job with status := "failed", error := some e }
      : PreloadJob))] = some { job with status := "failed", error := some e } := by
    simp [jsMapGet]
  have hget2 : jsMapGet id [(id, ({ job with status := "failed", error := msg }
      : PreloadJob))] = some { job with status := "failed", error := msg } := by
    simp [jsMapGet]
  rw [getPreloadStatus_present now2 id _ _ hget1, getPreloadStatus_present now2 id _ _ hget2]

/-- C6 amended, witness: a resolver that always fails drives a one-text job
to `"failed"` with the message captured, and the serialized response ignores
the captured message. -/
theorem preload_error_captured_not_reported_witness :
    preloadLoop (fun _ _ => Except.error "boom") 7
        (⟨"j", ["你"], "zh-CN", "processing", [], 0, 0, none, none, none⟩
          : PreloadJob).language
        (⟨"j", ["你"], "zh-CN", "processing", [], 0, 0, none, none, none⟩
          : PreloadJob).texts []
      = (.error "boom", []) ∧
    (runPreloadPass (fun _ _ => Except.error "boom") 7
        ⟨"j", ["你"], "zh-CN", "processing", [], 0, 0, none, none, none⟩ []).1.status
      = "failed" ∧
    (runPreloadPass (fun _ _ => Except.error "boom") 7
        ⟨"j", ["你"], "zh-CN", "processing", [], 0, 0, none, none, none⟩ []).1.error
      = some "boom" := by
  have h := preload_error_captured_not_reported (fun _ _ => Except.error "boom") 7
    ⟨"j", ["你"], "zh-CN", "processing", [], 0, 0, none, none, none⟩ [] "boom" []
    rfl
  exact ⟨rfl, h.1, h.2.1⟩

/-! ## C4: results of the resolution pass -/

/-- A successful pass produces one result per input text, in input order. -/
theorem preloadLoop_ok_texts (resolve : String → String → Except String String)
    (now : Nat) (language : String) :
    ∀ (texts : List String) (cache : AudioCache) (results : List PreloadResult)
      (c : AudioCache),
      preloadLoop resolve now language texts cache = (.ok results, c) →
      results.map PreloadResult.text = texts := by
  intro texts
  induction texts with
  | nil =>
    intro cache results c h
    simp only [preloadLoop, Prod.mk.injEq, Except.ok.injEq] at h
    rw [← h.1]
    rfl
  | cons t ts ih =>
    intro cache results c h
    rw [preloadLoop] at h
    by_cases hhit : jsMapHas (generateCacheKey t language) cache
    · rw [if_pos hhit] at h
      rcases hrec : preloadLoop resolve now language ts cache with ⟨er, c1⟩
      rw [hrec] at h
      cases er with
      | ok rs =>
        simp only [Prod.mk.injEq, Except.ok.injEq] at h
        rw [← h.1, List.map_cons, ih cache rs c1 hrec]
      | error e =>
        simp at h
    · rw [if_neg hhit] at h
      rcases hres : resolve t language with e | url
      · simp only [hres] at h
        simp at h
      · simp only [hres] at h
        rcases hrec : preloadLoop resolve now language ts
            (putRecord AUDIO_CONFIG_MAX_CACHE_SIZE (generateCacheKey t language)
              ⟨url, t, language, now⟩ cache) with ⟨er, c1⟩
        rw [hrec] at h
        cases er with
        | ok rs =>
          simp only [Prod.mk.injEq, Except.ok.injEq] at h
          rw [← h.1, List.map_cons, ih _ rs c1 hrec]
        | error e =>
          simp at h

/-- C4: for a job as created by `POST /preload` (so with `results = []`),
when the background resolution pass completes successfully the job reaches
status `"completed"` with exactly one result per input text, in input order;
when the pass fails the job reaches status `"failed"` and its `results`
stay empty — no partial results are kept. -/
theorem preload_pass_results (resolve : String → String → Except String String)
    (now : Nat) (job : PreloadJob) (cache : AudioCache) (hres0 : job.results = []) :
    (∀ results c,
        preloadLoop resolve now job.language job.texts cache = (.ok results, c) →
        (runPreloadPass resolve now job cache).1.status = "completed"
        ∧ (runPreloadPass resolve now job cache).1.results.length = job.texts.length
        ∧ (runPreloadPass resolve now job cache).1.results.map PreloadResult.text
            = job.texts) ∧
    (∀ e c,
        preloadLoop resolve now job.language job.texts cache = (.error e, c) →
        (runPreloadPass resolve now job cache).1.status = "failed"
        ∧ (runPreloadPass resolve now job cache).1.results = []) := by
  constructor
  · intro results c h
    have hrun : runPreloadPass resolve now job cache
        = ({ job with
              status := "completed", results := results,
              completedTime := some now,
              processingDuration := some (now - job.startTime) }, c) := by
      rw [runPreloadPass, h]
    have hmap := preloadLoop_ok_texts resolve now job.language job.texts cache results c h
    rw [hrun]
    refine ⟨rfl, ?_, hmap⟩
    have := congrArg List.length hmap
    simpa using this
  · intro e c h
    have hrun : runPreloadPass resolve now job cache
        = ({ job with status := "failed", error := some e }, c) := by
      rw [runPreloadPass, h]
    rw [hrun]
    exact ⟨rfl, hres0⟩

/-- C4 witness: with the always-succeeding resolver, a two-text job completes
with two ordered results; with an always-failing resolver, a job fails with
empty results. -/
theorem preload_pass_results_witness :
    (⟨"j", ["你", "好"], "zh-CN", "processing", [], 0, 0, none, none, none⟩
        : PreloadJob).results = [] ∧
    ((runPreloadPass (fun t l => Except.ok (generateAudioUrl t l)) 3
        ⟨"j", ["你", "好"], "zh-CN", "processing", [], 0, 0, none, none, none⟩ []).1.status
      = "completed"
      ∧ (runPreloadPass (fun t l => Except.ok (generateAudioUrl t l)) 3
          ⟨"j", ["你", "好"], "zh-CN", "processing", [], 0, 0, none, none, none⟩
          []).1.results.length
        = (⟨"j", ["你", "好"], "zh-CN", "processing", [], 0, 0, none, none, none⟩
            : PreloadJob).texts.length
      ∧ (runPreloadPass (fun t l => Except.ok (generateAudioUrl t l)) 3
          ⟨"j", ["你", "好"], "zh-CN", "processing", [], 0, 0, none, none, none⟩
          []).1.results.map PreloadResult.text
        = (⟨"j", ["你", "好"], "zh-CN", "processing", [], 0, 0, none, none, none⟩
            : PreloadJob).texts) ∧
    ((runPreloadPass (fun _ _ => Except.error "down") 9
        ⟨"k", ["你"], "zh-CN", "processing", [], 0, 0, none, none, none⟩ []).1.status
      = "failed"
      ∧ (runPreloadPass (fun _ _ => Except.error "down") 9
          ⟨"k", ["你"], "zh-CN", "processing", [], 0, 0, none, none, none⟩ []).1.results
        = []) := by
  have hok := (preload_pass_results (fun t l => Except.ok (generateAudioUrl t l)) 3
      ⟨"j", ["你", "好"], "zh-CN", "processing", [], 0, 0, none, none, none⟩ [] rfl).1
    [⟨"你", "/play/你-zh-CN", false⟩, ⟨"好", "/play/好-zh-CN", false⟩]
    (preloadLoop (fun t l => Except.ok (generateAudioUrl t l)) 3 "zh-CN" ["你", "好"] []).2
    rfl
  have herr := (preload_pass_results (fun _ _ => Except.error "down") 9
      ⟨"k", ["你"], "zh-CN", "processing", [], 0, 0, none, none, none⟩ [] rfl).2
    "down" [] rfl
  exact ⟨rfl, hok, herr⟩

/-! ## C5: input validation -/

/-- C5: the shared text-validity predicate accepts exactly the non-empty
strings of JS length at most 100 containing at least one CJK Unified
Ideographs / Extension A character; `POST /audio` rejects an invalid text
without mutating the state and accepts any valid text with a supported
language; `POST /preload` rejects an empty list, a list of more than 10
entries, any invalid text, or an unsupported language with a validation
error and an unchanged state (no job created, no cache mutation), and
otherwise registers the processing job. -/
theorem validation_guards_requests :
    (∀ t : String, isValidChineseText t = true ↔
        (t ≠ "" ∧ jsStringLength t ≤ 100 ∧ ∃ c ∈ t.data, isChineseChar c = true)) ∧
    (∀ (now : Nat) (t : String) (lang : Option String) (st : ServerState),
        isValidChineseText t = false →
        postAudio now t lang st = (.invalidText, st)) ∧
    (∀ (now : Nat) (t : String) (lang : Option String) (st : ServerState),
        isValidChineseText t = true →
        AUDIO_CONFIG_SUPPORTED_LANGUAGES.contains
            (lang.getD AUDIO_CONFIG_DEFAULT_LANGUAGE) = true →
        ∃ url cached, (postAudio now t lang st).1
          = .ok t (lang.getD AUDIO_CONFIG_DEFAULT_LANGUAGE) url cached) ∧
    (∀ (now : Nat) (texts : List String) (lang : Option String) (newId : String)
        (st : ServerState),
        (texts = [] ∨ 10 < texts.length
          ∨ (∃ t ∈ texts, isValidChineseText t = false)
          ∨ AUDIO_CONFIG_SUPPORTED_LANGUAGES.contains
              (lang.getD AUDIO_CONFIG_DEFAULT_LANGUAGE) = false) →
        (postPreload now texts lang newId st).1.isValidationError = true
        ∧ (postPreload now texts lang newId st).2 = st) ∧
    (∀ (now : Nat) (texts : List String) (lang : Option String) (newId : String)
        (st : ServerState),
        texts ≠ [] → texts.length ≤ 10 →
        (∀ t ∈ texts, isValidChineseText t = true) →
        AUDIO_CONFIG_SUPPORTED_LANGUAGES.contains
            (lang.getD AUDIO_CONFIG_DEFAULT_LANGUAGE) = true →
        (postPreload now texts lang newId st).1
          = .accepted newId "processing" texts.length
              (lang.getD AUDIO_CONFIG_DEFAULT_LANGUAGE) ("/preload/" ++ newId)
        ∧ (postPreload now texts lang newId st).2.audioCache = st.audioCache
        ∧ (postPreload now texts lang newId st).2.preloadQueue
            = jsMapSet newId
                ⟨newId, texts, lang.getD AUDIO_CONFIG_DEFAULT_LANGUAGE, "processing",
                  [], now, now, none, none, none⟩
                st.preloadQueue) := by
  refine ⟨?_, ?_, ?_, ?_, ?_⟩
  · intro t
    by_cases h : t = ""
    · simp [isValidChineseText, h]
    · simp only [isValidChineseText, beq_iff_eq, h, if_false, Bool.and_eq_true,
        List.any_eq_true, decide_eq_true_eq, ne_eq, not_false_eq_true, true_and]
      tauto
  · intro now t lang st hval
    simp [postAudio, hval]
  · intro now t lang st hval hlang
    have hmem : lang.getD AUDIO_CONFIG_DEFAULT_LANGUAGE ∈ AUDIO_CONFIG_SUPPORTED_LANGUAGES := by
      simpa using hlang
    rcases hg : jsMapGet (generateCacheKey t (lang.getD AUDIO_CONFIG_DEFAULT_LANGUAGE))
        st.audioCache with _ | r
    · exact ⟨"/play/" ++ generateCacheKey t (lang.getD AUDIO_CONFIG_DEFAULT_LANGUAGE),
        false, by simp [postAudio, hval, hmem, hg]⟩
    · exact ⟨"/play/" ++ generateCacheKey t (lang.getD AUDIO_CONFIG_DEFAULT_LANGUAGE),
        true, by simp [postAudio, hval, hmem, hg]⟩
  · intro now texts lang newId st hbad
    by_cases h1 : texts.length = 0
    · simp [postPreload, h1, PreloadResponse.isValidationError]
    · by_cases h2 : 10 < texts.length
      · simp [postPreload, h1, h2, PreloadResponse.isValidationError]
      · rcases hfind : texts.find? (fun t => !isValidChineseText t) with _ | t
        · by_cases h4 : AUDIO_CONFIG_SUPPORTED_LANGUAGES.contains
              (lang.getD AUDIO_CONFIG_DEFAULT_LANGUAGE) = true
          · exfalso
            rcases hbad with h | h | h | h
            · exact h1 (by rw [h]; rfl)
            · exact h2 h
            · obtain ⟨t, ht, hv⟩ := h
              have := List.find?_eq_none.mp hfind t ht
              simp [hv] at this
            · rw [h4] at h
              exact Bool.noConfusion h
          · have hmem4 : ¬lang.getD AUDIO_CONFIG_DEFAULT_LANGUAGE
                ∈ AUDIO_CONFIG_SUPPORTED_LANGUAGES := by
              simpa using h4
            simp [postPreload, h1, h2, hfind, hmem4, PreloadResponse.isValidationError]
        · simp [postPreload, h1, h2, hfind, PreloadResponse.isValidationError]
  · intro now texts lang newId st hne hlen hall hlang
    have h1 : ¬texts.length = 0 := by
      intro h
      exact hne (List.length_eq_zero.mp h)
    have h2 : ¬10 < texts.length := Nat.not_lt.mpr hlen
    have hfind : texts.find? (fun t => !isValidChineseText t) = none :=
      List.find?_eq_none.mpr fun t ht => by simp [hall t ht]
    have hmem : lang.getD AUDIO_CONFIG_DEFAULT_LANGUAGE ∈ AUDIO_CONFIG_SUPPORTED_LANGUAGES := by
      simpa using hlang
    refine ⟨?_, ?_, ?_⟩ <;> simp [postPreload, h1, h2, hfind, hmem]

/-- C5 witness: `"你好"` is accepted (and characterized), `"hello"` is
rejected by `/audio` without touching the state, and an empty batch is
rejected by `/preload` without touching the state. -/
theorem validation_guards_requests_witness :
    (isValidChineseText "你好" = true ↔
      ("你好" ≠ "" ∧ jsStringLength "你好" ≤ 100
        ∧ ∃ c ∈ "你好".data, isChineseChar c = true)) ∧
    isValidChineseText "hello" = false ∧
    postAudio 0 "hello" none ⟨[], []⟩ = (.invalidText, ⟨[], []⟩) ∧
    (postPreload 0 [] none "id" ⟨[], []⟩).1.isValidationError = true ∧
    (postPreload 0 [] none "id" ⟨[], []⟩).2 = ⟨[], []⟩ := by
  have h := validation_guards_requests
  have hpre := h.2.2.2.1 0 [] none "id" ⟨[], []⟩ (Or.inl rfl)
  exact ⟨h.1 "你好", by decide, h.2.1 0 "hello" none ⟨[], []⟩ (by decide), hpre.1, hpre.2⟩

/-! ## C8: the audio proxy endpoint -/

/-- C8: `GET /play/{key}` never mutates the cache and performs at most one
upstream fetch; it responds 404 exactly when the key is absent; when the key
is present it fetches exactly the cached record's resource locator once and
maps the outcome to the streamed bytes with their audio content type and
cache-control directive, a 504 timeout, or a 500 upstream failure carrying
the underlying message. -/
theorem getPlay_spec (cacheKey : String) (outcome : UpstreamOutcome)
    (cache : AudioCache) :
    ((getPlay cacheKey outcome cache).2.2 = cache) ∧
    ((getPlay cacheKey outcome cache).2.1.length ≤ 1) ∧
    (jsMapGet cacheKey cache = none ↔ (getPlay cacheKey outcome cache).1 = .notFound) ∧
    (∀ r, jsMapGet cacheKey cache = some r →
        (getPlay cacheKey outcome cache).2.1 = [r.audioUrl]
        ∧ (outcome = .success →
            (getPlay cacheKey outcome cache).1
              = .streamOk "audio/mpeg" "public, max-age=3600")
        ∧ (∀ msg, outcome = .transportError msg →
            (getPlay cacheKey outcome cache).1 = .upstreamFailure msg)
        ∧ (outcome = .timeout → (getPlay cacheKey outcome cache).1 = .timedOut)) := by
  rcases hg : jsMapGet cacheKey cache with _ | r
  · refine ⟨by simp [getPlay, hg], by simp [getPlay, hg], by simp [getPlay, hg], ?_⟩
    intro r2 hr2
    exact Option.noConfusion hr2
  · refine ⟨by simp [getPlay, hg], ?_, ?_, ?_⟩
    · cases outcome <;> simp [getPlay, hg]
    · cases outcome <;> simp [getPlay, hg]
    · intro r2 hr2
      injection hr2 with he
      subst he
      refine ⟨by simp [getPlay, hg], ?_, ?_, ?_⟩
      · intro ho
        subst ho
        simp [getPlay, hg]
      · intro msg ho
        subst ho
        simp [getPlay, hg]
      · intro ho
        subst ho
        simp [getPlay, hg]

/-- C8 witness: with a one-entry cache, a present key with a transport error
yields a single fetch of the stored locator, a 500 carrying the message, and
an unchanged cache. -/
theorem getPlay_spec_witness :
    jsMapGet "k" ([("k", ⟨"u", "t", "l", 0⟩)] : AudioCache) = some ⟨"u", "t", "l", 0⟩ ∧
    (getPlay "k" (.transportError "boom") [("k", ⟨"u", "t", "l", 0⟩)]).2.1 = ["u"] ∧
    (getPlay "k" (.transportError "boom") [("k", ⟨"u", "t", "l", 0⟩)]).1
      = .upstreamFailure "boom" ∧
    (getPlay "k" (.transportError "boom") [("k", ⟨"u", "t", "l", 0⟩)]).2.2
      = [("k", ⟨"u", "t", "l", 0⟩)] := by
  have h := getPlay_spec "k" (.transportError "boom") [("k", ⟨"u", "t", "l", 0⟩)]
  have h4 := h.2.2.2 ⟨"u", "t", "l", 0⟩ (by decide)
  exact ⟨by decide, h4.1, h4.2.2.1 "boom" rfl, h.1⟩

/-! ## C9: the two /audio variants -/

/-- C9: on every request and over any well-formed state (stored records hold
the external locator resolved from their own text and language, the
invariant both insert paths establish), the two source variants of
`POST /audio` perform the same validation, the same cache mutation, and
agree on the echoed text, language and cached flag; they differ only in the
returned audio reference — `src/server.js` returns the indirect
`/play/{cacheKey}` reference while `src/unnamed/part_000` returns a direct
external TTS locator. -/
theorem audio_variants_agree (now : Nat) (text : String) (language : Option String)
    (st : ServerState)
    (hwf : ∀ e ∈ st.audioCache, e.2.audioUrl = generateAudioUrl e.2.text e.2.language) :
    ((postAudio now text language st).2 = (postAudioDirect now text language st).2) ∧
    ((postAudio now text language st).1 = .invalidText ↔
      (postAudioDirect now text language st).1 = .invalidText) ∧
    ((postAudio now text language st).1 = .unsupportedLanguage ↔
      (postAudioDirect now text language st).1 = .unsupportedLanguage) ∧
    (∀ t l u c, (postAudio now text language st).1 = .ok t l u c →
        u = "/play/" ++ generateCacheKey t l
        ∧ ∃ t0 l0, (postAudioDirect now text language st).1
            = .ok t l (generateAudioUrl t0 l0) c) := by
  by_cases hval : isValidChineseText text
  · by_cases hlang : language.getD AUDIO_CONFIG_DEFAULT_LANGUAGE
        ∈ AUDIO_CONFIG_SUPPORTED_LANGUAGES
    · rcases hg : jsMapGet
          (generateCacheKey text (language.getD AUDIO_CONFIG_DEFAULT_LANGUAGE))
          st.audioCache with _ | r
      · have heqA : (postAudio now text language st).1
            = .ok text (language.getD AUDIO_CONFIG_DEFAULT_LANGUAGE)
                ("/play/" ++ generateCacheKey text
                  (language.getD AUDIO_CONFIG_DEFAULT_LANGUAGE)) false := by
          simp [postAudio, hval, hlang, hg]
        have heqD : (postAudioDirect now text language st).1
            = .ok text (language.getD AUDIO_CONFIG_DEFAULT_LANGUAGE)
                (generateAudioUrl text (language.getD AUDIO_CONFIG_DEFAULT_LANGUAGE))
                false := by
          simp [postAudioDirect, hval, hlang, hg]
        refine ⟨by simp [postAudio, postAudioDirect, hval, hlang, hg],
          by rw [heqA, heqD]; simp, by rw [heqA, heqD]; simp, ?_⟩
        intro t l u c h
        have h2 := heqA.symm.trans h
        injection h2 with ht hl hu hc
        subst ht
        subst hl
        subst hu
        subst hc
        exact ⟨rfl, text, language.getD AUDIO_CONFIG_DEFAULT_LANGUAGE, heqD⟩
      · have hr : r.audioUrl = generateAudioUrl r.text r.language := by
          rw [jsMapGet] at hg
          rcases hf : st.audioCache.find?
              (fun e => e.1 == generateCacheKey text
                (language.getD AUDIO_CONFIG_DEFAULT_LANGUAGE)) with _ | e0
          · rw [hf] at hg
            exact Option.noConfusion hg
          · rw [hf] at hg
            injection hg with hg2
            rw [← hg2]
            exact hwf e0 (List.mem_of_find?_eq_some hf)
        have heqA : (postAudio now text language st).1
            = .ok text (language.getD AUDIO_CONFIG_DEFAULT_LANGUAGE)
                ("/play/" ++ generateCacheKey text
                  (language.getD AUDIO_CONFIG_DEFAULT_LANGUAGE)) true := by
          simp [postAudio, hval, hlang, hg]
        have heqD : (postAudioDirect now text language st).1
            = .ok text (language.getD AUDIO_CONFIG_DEFAULT_LANGUAGE) r.audioUrl true := by
          simp [postAudioDirect, hval, hlang, hg]
        refine ⟨by simp [postAudio, postAudioDirect, hval, hlang, hg],
          by rw [heqA, heqD]; simp, by rw [heqA, heqD]; simp, ?_⟩
        intro t l u c h
        have h2 := heqA.symm.trans h
        injection h2 with ht hl hu hc
        subst ht
        subst hl
        subst hu
        subst hc
        exact ⟨rfl, r.text, r.language, by rw [heqD, hr]⟩
    · refine ⟨by simp [postAudio, postAudioDirect, hval, hlang],
        by simp [postAudio, postAudioDirect, hval, hlang],
        by simp [postAudio, postAudioDirect, hval, hlang], ?_⟩
      intro t l u c h
      simp [postAudio, hval, hlang] at h
  · refine ⟨by simp [postAudio, postAudioDirect, hval],
      by simp [postAudio, postAudioDirect, hval],
      by simp [postAudio, postAudioDirect, hval], ?_⟩
    intro t l u c h
    simp [postAudio, hval] at h

/-- C9 witness: over the empty (trivially well-formed) state, both variants
of a valid request agree on state and validation, and the direct variant
returns the external TTS locator itself. -/
theorem audio_variants_agree_witness :
    (∀ e ∈ (⟨[], []⟩ : ServerState).audioCache,
        e.2.audioUrl = generateAudioUrl e.2.text e.2.language) ∧
    (postAudio 0 "你好" none ⟨[], []⟩).2 = (postAudioDirect 0 "你好" none ⟨[], []⟩).2 ∧
    ((postAudio 0 "你好" none ⟨[], []⟩).1 = .invalidText ↔
      (postAudioDirect 0 "你好" none ⟨[], []⟩).1 = .invalidText) ∧
    (postAudioDirect 0 "你好" none ⟨[], []⟩).1
      = .ok "你好" "zh-CN" (generateAudioUrl "你好" "zh-CN") false := by
  have h := audio_variants_agree 0 "你好" none ⟨[], []⟩ (by simp)
  exact ⟨by simp, h.1, h.2.1, by decide⟩

end AudioService
